import Mathlib

/-
  Verification development for the Matter Playground scene-model /
  live-simulation synchronization engine (src/src/main.js).

  The embedding translates the Playground class state and the operations the
  claims are about: createModel / addModelToWorld / buildBody, createLink /
  attachLink / refreshLinksFor / removeLinksFor, rebuildBody, deleteSelection,
  resetWorld, commitHistory / undo / redo / applySnapshot, loadScene and the
  save-dialog serializer, plus inferNextId / inferNextLinkId with the exact
  JS parsing (split on the dash character, parseInt radix 10) and JS number
  truthiness for the fallback operator.

  Numeric values carried by the model are rationals; the only real-valued
  quantity is the spring rest length, computed with Math.hypot, embedded as
  Real.sqrt of the sum of squares.  DOM rendering, the canvas gradient
  pattern, and the Matter.js world list are outside the model boundary; the
  body/constraint handle tables (bodyMap / linkMap) are embedded as
  association lists mirroring the insertion-ordered JS Map.
-/

namespace MatterPlayground

structure Point where
  x : ℚ
  y : ℚ
  deriving DecidableEq, Repr

inductive BodyType where
  | dynamic
  | static
  | sensor
  deriving DecidableEq, Repr

inductive RenderMode where
  | solid
  | outline
  | gradient
  deriving DecidableEq, Repr

inductive Shape where
  | circle (radius : ℚ)
  | rectangle (width height : ℚ)
  | polygon (sides : ℤ) (radius : ℚ)
  deriving DecidableEq, Repr

/- shape.type, used by createModel for the label and by changeShape. -/
def Shape.typeName : Shape → String
  | .circle _ => "circle"
  | .rectangle _ _ => "rectangle"
  | .polygon _ _ => "polygon"

structure Physics where
  restitution : ℚ
  friction : ℚ
  frictionAir : ℚ
  frictionStatic : ℚ
  density : ℚ
  deriving DecidableEq, Repr

structure Visual where
  fill : String
  stroke : String
  strokeWidth : ℚ
  opacity : ℚ
  renderMode : RenderMode
  deriving DecidableEq, Repr

structure SceneObject where
  id : String
  label : String
  position : Point
  angle : ℚ
  bodyType : BodyType
  locked : Bool
  shape : Shape
  physics : Physics
  visual : Visual
  deriving DecidableEq, Repr

/- Constraint options: { stiffness, damping, length } as built by createLink. -/
structure LinkOptions where
  stiffness : ℚ
  damping : ℚ
  length : ℝ

structure SpringLink where
  id : String
  a : String
  b : String
  options : LinkOptions

/- A live Matter.js body handle, restricted to the fields the engine layer
   reads and writes: kinematic state, the static/sensor flags, the material
   parameters, and the plugin back-reference { modelId, locked }. -/
structure Body where
  position : Point
  velocity : Point
  angle : ℚ
  angularVelocity : ℚ
  isStatic : Bool
  isSensor : Bool
  physics : Physics
  modelId : String
  locked : Bool
  deriving DecidableEq, Repr

/- A live constraint handle as produced by Constraint.create. -/
structure SConstraint where
  bodyA : Body
  bodyB : Body
  options : LinkOptions

/- The history snapshot shape { objects, links, nextId, nextLinkId }. -/
structure Snapshot where
  objects : List SceneObject
  links : List SpringLink
  nextId : ℤ
  nextLinkId : ℤ

/- A parsed scene document; absent keys are none. -/
structure Doc where
  objects : Option (List SceneObject)
  links : Option (List SpringLink)
  nextId : Option ℤ
  nextLinkId : Option ℤ

/- The mutable Playground state relevant to the scene model core. -/
structure PState where
  objects : List SceneObject
  links : List SpringLink
  bodyMap : List (String × Body)
  linkMap : List (String × SConstraint)
  selectedIds : List String
  constraintAnchor : Option Body
  history : List Snapshot
  historyIndex : ℤ
  nextId : ℤ
  nextLinkId : ℤ

/- Constructor state before the initial commitHistory call. -/
def initState : PState :=
  { objects := [], links := [], bodyMap := [], linkMap := [],
    selectedIds := [], constraintAnchor := none,
    history := [], historyIndex := -1, nextId := 1, nextLinkId := 1 }

/-! Insertion-ordered association lists mirroring the JS Map operations. -/

def assocGet {α : Type} : List (String × α) → String → Option α
  | [], _ => none
  | (k, v) :: rest, i => if k = i then some v else assocGet rest i

def assocSet {α : Type} : List (String × α) → String → α → List (String × α)
  | [], k, v => [(k, v)]
  | (k0, v0) :: rest, k, v =>
    if k0 = k then (k, v) :: rest else (k0, v0) :: assocSet rest k v

def assocDelete {α : Type} (m : List (String × α)) (k : String) : List (String × α) :=
  m.filter (fun p => ! decide (p.1 = k))

theorem assocGet_assocSet_self {α : Type} (m : List (String × α)) (k : String) (v : α) :
    assocGet (assocSet m k v) k = some v := by
  induction m with
  | nil => simp [assocSet, assocGet]
  | cons p rest ih =>
    obtain ⟨k0, v0⟩ := p
    by_cases h : k0 = k
    · simp [assocSet, h, assocGet]
    · simp [assocSet, h, assocGet, ih]

theorem assocGet_assocSet_ne {α : Type} (m : List (String × α)) (k i : String) (v : α)
    (h : ¬ i = k) : assocGet (assocSet m k v) i = assocGet m i := by
  induction m with
  | nil =>
    have h' : ¬ k = i := fun e => h e.symm
    simp [assocSet, assocGet, h']
  | cons p rest ih =>
    obtain ⟨k0, v0⟩ := p
    by_cases h0 : k0 = k
    · have h' : ¬ k = i := fun e => h e.symm
      have h0' : ¬ k0 = i := by
        intro e; exact h' (h0 ▸ e)
      simp [assocSet, h0, assocGet, h', h0']
    · by_cases h1 : k0 = i
      · simp [assocSet, h0, assocGet, h1, h]
      · simp [assocSet, h0, assocGet, h1, ih]

theorem assocGet_assocDelete_self {α : Type} (m : List (String × α)) (k : String) :
    assocGet (assocDelete m k) k = none := by
  induction m with
  | nil => simp [assocDelete, assocGet]
  | cons p rest ih =>
    obtain ⟨k0, v0⟩ := p
    by_cases h : k0 = k
    · simpa [assocDelete, h] using ih
    · simp only [assocDelete, List.filter] at ih ⊢
      simp [h, assocGet, ih]

theorem assocGet_assocDelete_ne {α : Type} (m : List (String × α)) (k i : String)
    (h : ¬ i = k) : assocGet (assocDelete m k) i = assocGet m i := by
  induction m with
  | nil => simp [assocDelete, assocGet]
  | cons p rest ih =>
    obtain ⟨k0, v0⟩ := p
    by_cases h0 : k0 = k
    · have h0' : ¬ k0 = i := by
        intro e; exact h ((h0 ▸ e : k = i)).symm
      have hki : ¬ k = i := fun e => h e.symm
      simp only [assocDelete, List.filter] at ih ⊢
      simp [h0, assocGet, h0', hki, ih]
    · simp only [assocDelete, List.filter] at ih ⊢
      by_cases h1 : k0 = i
      · simp [h0, assocGet, h1, h]
      · simp [h0, assocGet, h1, ih]

theorem assocGet_assocDelete_none {α : Type} (m : List (String × α)) (k i : String)
    (h : assocGet m i = none) : assocGet (assocDelete m k) i = none := by
  by_cases hk : i = k
  · subst hk; exact assocGet_assocDelete_self m i
  · rw [assocGet_assocDelete_ne m k i hk]; exact h

/-! Decimal printing of JS numbers (for the template literals building the
    obj- and link- ids) and JS parseInt with radix 10. -/

def digitChar (n : ℕ) : Char := Char.ofNat (48 + n)

def printNatAux : ℕ → ℕ → List Char → List Char
  | 0, _, acc => acc
  | fuel + 1, n, acc =>
    if n < 10 then digitChar n :: acc
    else printNatAux fuel (n / 10) (digitChar (n % 10) :: acc)

def printNat (n : ℕ) : List Char := printNatAux (n + 1) n []

def intChars (n : ℤ) : List Char :=
  if n < 0 then '-' :: printNat (-n).toNat else printNat n.toNat

def objChars : List Char := ['o', 'b', 'j']

def linkChars : List Char := ['l', 'i', 'n', 'k']

/- The id produced by a template literal such as obj-3: the characters of the
   kind tag followed by a dash and the decimal digits of the counter. -/
def mkId (p : List Char) (n : ℤ) : String := String.mk (p ++ '-' :: intChars n)

def isSpaceChar (c : Char) : Bool := c == ' ' || c == '\t' || c == '\n' || c == '\r'

def digitVal (c : Char) : ℕ := c.toNat - 48

def foldDigit (a : ℕ) (c : Char) : ℕ := a * 10 + digitVal c

def parseDigits (cs : List Char) : Option ℕ :=
  let ds := cs.takeWhile Char.isDigit
  if ds.isEmpty then none
  else some (ds.foldl foldDigit 0)

def jsParseIntChars : List Char → Option ℤ
  | [] => none
  | c :: rest =>
    if c = '-' then (parseDigits rest).map (fun n => -(n : ℤ))
    else if c = '+' then (parseDigits rest).map (fun n => (n : ℤ))
    else (parseDigits (c :: rest)).map (fun n => (n : ℤ))

/-! The JS String.prototype.split on a single-character separator. -/

def splitOnCharAux (sep : Char) : List Char → List Char → List (List Char)
  | [], acc => [acc.reverse]
  | c :: rest, acc =>
    if c = sep then acc.reverse :: splitOnCharAux sep rest []
    else splitOnCharAux sep rest (c :: acc)

def splitOnChar (cs : List Char) (sep : Char) : List (List Char) := splitOnCharAux sep cs []

/- The numeric value inferNextId / inferNextLinkId extracts from one id:
   parseInt(id.split(dash)[1], 10), none standing for NaN. -/
def idSuffix (s : String) : Option ℤ :=
  match (splitOnChar s.data '-').get? 1 with
  | none => none
  | some seg => jsParseIntChars (seg.dropWhile isSpaceChar)

/- JS truthiness fallback x || d for a number x (0 is falsy; NaN cannot occur
   on these paths). -/
def jsOrZ (n d : ℤ) : ℤ := if n = 0 then d else n

/- JS truthiness fallback for a possibly-absent number. -/
def jsOrOpt (n : Option ℤ) (d : ℤ) : ℤ :=
  match n with
  | none => d
  | some k => jsOrZ k d

theorem digitChar_isDigit {m : ℕ} (h : m < 10) : (digitChar m).isDigit = true := by
  interval_cases m <;> decide

theorem digitVal_digitChar {m : ℕ} (h : m < 10) : digitVal (digitChar m) = m := by
  interval_cases m <;> decide

theorem digit_not_space {c : Char} (h : c.isDigit = true) : isSpaceChar c = false := by
  have h1 : c ≠ ' ' := by intro e; subst e; exact absurd h (by decide)
  have h2 : c ≠ '\t' := by intro e; subst e; exact absurd h (by decide)
  have h3 : c ≠ '\n' := by intro e; subst e; exact absurd h (by decide)
  have h4 : c ≠ '\r' := by intro e; subst e; exact absurd h (by decide)
  simp [isSpaceChar, h1, h2, h3, h4]

theorem digit_ne_dash {c : Char} (h : c.isDigit = true) : ¬ c = '-' := by
  intro e; subst e; exact absurd h (by decide)

theorem digit_ne_plus {c : Char} (h : c.isDigit = true) : ¬ c = '+' := by
  intro e; subst e; exact absurd h (by decide)

theorem printNatAux_digits : ∀ (fuel n : ℕ) (acc : List Char),
    (∀ c ∈ acc, c.isDigit = true) → ∀ c ∈ printNatAux fuel n acc, c.isDigit = true := by
  intro fuel
  induction fuel with
  | zero => intro n acc hacc c hc; exact hacc c hc
  | succ fuel ih =>
    intro n acc hacc c hc
    by_cases h : n < 10
    · simp only [printNatAux, if_pos h] at hc
      rcases List.mem_cons.mp hc with h1 | h1
      · subst h1; exact digitChar_isDigit h
      · exact hacc c h1
    · simp only [printNatAux, if_neg h] at hc
      refine ih (n / 10) (digitChar (n % 10) :: acc) ?_ c hc
      intro c' hc'
      rcases List.mem_cons.mp hc' with h1 | h1
      · subst h1; exact digitChar_isDigit (Nat.mod_lt n (by omega))
      · exact hacc c' h1

theorem printNatAux_cons : ∀ (fuel n : ℕ) (acc : List Char), n < fuel →
    ∃ d rest, printNatAux fuel n acc = d :: rest ∧ d.isDigit = true := by
  intro fuel
  induction fuel with
  | zero => intro n acc h; omega
  | succ fuel ih =>
    intro n acc h
    by_cases h10 : n < 10
    · exact ⟨digitChar n, acc, by simp [printNatAux, if_pos h10], digitChar_isDigit h10⟩
    · have hdiv : n / 10 < fuel := by
        have := Nat.div_lt_self (by omega : 0 < n) (by omega : 1 < 10)
        omega
      obtain ⟨d, rest, he, hd⟩ := ih (n / 10) (digitChar (n % 10) :: acc) hdiv
      exact ⟨d, rest, by simp [printNatAux, if_neg h10, he], hd⟩

theorem printNatAux_fold : ∀ (fuel n : ℕ) (acc : List Char), n < fuel →
    (printNatAux fuel n acc).foldl foldDigit 0 = acc.foldl foldDigit n := by
  intro fuel
  induction fuel with
  | zero => intro n acc h; omega
  | succ fuel ih =>
    intro n acc h
    by_cases h10 : n < 10
    · simp only [printNatAux, if_pos h10, List.foldl_cons, foldDigit,
        digitVal_digitChar h10, Nat.zero_mul, Nat.zero_add]
    · have hdiv : n / 10 < fuel := by
        have := Nat.div_lt_self (by omega : 0 < n) (by omega : 1 < 10)
        omega
      have hm : n % 10 < 10 := Nat.mod_lt n (by omega)
      rw [printNatAux, if_neg h10, ih (n / 10) _ hdiv]
      simp only [List.foldl_cons, foldDigit, digitVal_digitChar hm]
      congr 1
      omega

theorem printNat_digits (n : ℕ) : ∀ c ∈ printNat n, c.isDigit = true :=
  printNatAux_digits (n + 1) n [] (by intro c hc; cases hc)

theorem printNat_cons (n : ℕ) : ∃ d rest, printNat n = d :: rest ∧ d.isDigit = true :=
  printNatAux_cons (n + 1) n [] (Nat.lt_succ_self n)

theorem printNat_fold (n : ℕ) : (printNat n).foldl foldDigit 0 = n :=
  printNatAux_fold (n + 1) n [] (Nat.lt_succ_self n)

theorem takeWhile_all {p : Char → Bool} : ∀ (l : List Char),
    (∀ c ∈ l, p c = true) → l.takeWhile p = l := by
  intro l
  induction l with
  | nil => intro _; rfl
  | cons c rest ih =>
    intro h
    have hc : p c = true := h c (List.mem_cons_self c rest)
    simp [List.takeWhile_cons, hc, ih (fun c' hc' => h c' (List.mem_cons_of_mem c hc'))]

theorem parseDigits_printNat (n : ℕ) : parseDigits (printNat n) = some n := by
  have hall := printNat_digits n
  obtain ⟨d, rest, he, _⟩ := printNat_cons n
  have hne : (printNat n).isEmpty = false := by rw [he]; rfl
  unfold parseDigits
  rw [takeWhile_all (printNat n) hall]
  simp only [hne, Bool.false_eq_true, if_false, printNat_fold]

theorem jsParseIntChars_printNat (n : ℕ) : jsParseIntChars (printNat n) = some (n : ℤ) := by
  obtain ⟨d, rest, he, hd⟩ := printNat_cons n
  have hparse : parseDigits (d :: rest) = some n := he ▸ parseDigits_printNat n
  rw [he]
  simp only [jsParseIntChars]
  rw [if_neg (digit_ne_dash hd), if_neg (digit_ne_plus hd), hparse]
  rfl

theorem dropWhile_space_printNat (n : ℕ) :
    (printNat n).dropWhile isSpaceChar = printNat n := by
  obtain ⟨d, rest, he, hd⟩ := printNat_cons n
  rw [he, List.dropWhile_cons, digit_not_space hd]
  simp

theorem splitOnCharAux_no_sep {sep : Char} : ∀ (l acc : List Char),
    (∀ c ∈ l, ¬ c = sep) → splitOnCharAux sep l acc = [acc.reverse ++ l] := by
  intro l
  induction l with
  | nil => intro acc _; simp [splitOnCharAux]
  | cons c rest ih =>
    intro acc h
    have hc : ¬ c = sep := h c (List.mem_cons_self c rest)
    rw [splitOnCharAux, if_neg hc, ih (c :: acc) (fun c' hc' => h c' (List.mem_cons_of_mem c hc'))]
    simp

theorem splitOnCharAux_append {sep : Char} (l2 : List Char) : ∀ (l acc : List Char),
    (∀ c ∈ l, ¬ c = sep) →
    splitOnCharAux sep (l ++ sep :: l2) acc = (acc.reverse ++ l) :: splitOnCharAux sep l2 [] := by
  intro l
  induction l with
  | nil => intro acc _; simp [splitOnCharAux]
  | cons c rest ih =>
    intro acc h
    have hc : ¬ c = sep := h c (List.mem_cons_self c rest)
    rw [List.cons_append, splitOnCharAux, if_neg hc,
      ih (c :: acc) (fun c' hc' => h c' (List.mem_cons_of_mem c hc'))]
    simp

theorem idSuffix_mkId (p : List Char) (n : ℤ) (hp : ∀ c ∈ p, ¬ c = '-') (hn : 0 ≤ n) :
    idSuffix (mkId p n) = some n := by
  have hchars : intChars n = printNat n.toNat := by
    unfold intChars
    rw [if_neg (by omega)]
  unfold idSuffix mkId
  show (match (splitOnChar (p ++ '-' :: intChars n) '-').get? 1 with
    | none => none
    | some seg => jsParseIntChars (seg.dropWhile isSpaceChar)) = some n
  rw [hchars]
  unfold splitOnChar
  rw [splitOnCharAux_append (printNat n.toNat) p [] hp,
    splitOnCharAux_no_sep (printNat n.toNat) []
      (fun c hc => digit_ne_dash (printNat_digits n.toNat c hc))]
  simp only [List.reverse_nil, List.nil_append, List.get?]
  rw [dropWhile_space_printNat, jsParseIntChars_printNat]
  congr 1
  omega

/-! The scene-model operations of the Playground class. -/

/- inferNextId: parseInt of the second dash-separated segment of each id,
   Math.max over those values seeded with -1, JS || 0 fallback, plus one. -/
def inferNextId (objs : List SceneObject) : ℤ :=
  let ids := objs.filterMap (fun o => idSuffix o.id)
  jsOrZ (ids.foldl max (-1)) 0 + 1

def inferNextLinkId (ls : List SpringLink) : ℤ :=
  let ids := ls.filterMap (fun l => idSuffix l.id)
  jsOrZ (ids.foldl max (-1)) 0 + 1

def DEFAULT_PHYSICS : Physics :=
  { restitution := 0.2, friction := 0.1, frictionAir := 0.01,
    frictionStatic := 0.5, density := 0.001 }

def DEFAULT_VISUAL : Visual :=
  { fill := "#4f46e5", stroke := "#111827", strokeWidth := 2, opacity := 1,
    renderMode := RenderMode.solid }

/- buildBody: a fresh Matter body is created at the model position with zero
   velocity and angle 0; Body.setAngle is applied only when model.angle is
   truthy.  The render options (and the gradient pattern) are rendering-only
   and stay outside the embedding. -/
def buildBody (m : SceneObject) : Body :=
  { position := m.position
    velocity := ⟨0, 0⟩
    angle := if m.angle = 0 then 0 else m.angle
    angularVelocity := 0
    isStatic := decide (m.bodyType = BodyType.static)
    isSensor := decide (m.bodyType = BodyType.sensor)
    physics := m.physics
    modelId := m.id
    locked := m.locked }

/- createModel: fresh id obj-(nextId++), label from the shape kind, angle 0,
   unlocked, default physics and visual. -/
def createModel (position : Point) (shape : Shape) (bodyType : BodyType) (s : PState) :
    SceneObject × PState :=
  (⟨mkId objChars s.nextId, shape.typeName, position, 0, bodyType, false, shape,
     DEFAULT_PHYSICS, DEFAULT_VISUAL⟩,
   { s with nextId := s.nextId + 1 })

def addModelToWorld (m : SceneObject) (s : PState) : PState :=
  { s with objects := s.objects ++ [m],
           bodyMap := assocSet s.bodyMap m.id (buildBody m) }

def handleSelection (id : String) (additive : Bool) (s : PState) : PState :=
  if additive then
    if s.selectedIds.contains id then s
    else { s with selectedIds := s.selectedIds ++ [id] }
  else { s with selectedIds := [id] }

/- syncModelTransforms: copy each live body position and angle back into its
   SceneObject; objects without a handle are left alone. -/
def syncOne (bm : List (String × Body)) (m : SceneObject) : SceneObject :=
  match assocGet bm m.id with
  | none => m
  | some b => { m with position := ⟨b.position.x, b.position.y⟩, angle := b.angle }

def syncModelTransforms (s : PState) : PState :=
  { s with objects := s.objects.map (syncOne s.bodyMap) }

def snapshotOf (s : PState) : Snapshot :=
  ⟨s.objects, s.links, s.nextId, s.nextLinkId⟩

/- commitHistory: sync transforms, deep-copy the model into a snapshot,
   truncate beyond historyIndex, push, and point the index at the new top. -/
def commitHistory (s : PState) : PState :=
  let s1 := syncModelTransforms s
  let h := s1.history.take (s1.historyIndex + 1).toNat ++ [snapshotOf s1]
  { s1 with history := h, historyIndex := (h.length : ℤ) - 1 }

/- attachLink: recreate the constraint for a link record against the current
   handles; a missing endpoint handle makes it a silent no-op. -/
def attachLink (l : SpringLink) (s : PState) : PState :=
  match assocGet s.bodyMap l.a, assocGet s.bodyMap l.b with
  | some ba, some bb =>
    { s with linkMap := assocSet s.linkMap l.id ⟨ba, bb, l.options⟩ }
  | _, _ => s

def rebuildAll (objs : List SceneObject) : List (String × Body) :=
  objs.foldl (fun bm o => assocSet bm o.id (buildBody o)) []

/- applySnapshot: install the snapshot model wholesale, clear the selection,
   clear both handle tables, materialize a body per object and reattach every
   link record. -/
def applySnapshot (snap : Snapshot) (s : PState) : PState :=
  let s1 : PState :=
    { s with objects := snap.objects,
             links := snap.links,
             nextId := snap.nextId,
             nextLinkId := jsOrZ snap.nextLinkId (inferNextLinkId snap.links),
             selectedIds := [],
             bodyMap := rebuildAll snap.objects,
             linkMap := [] }
  snap.links.foldl (fun st l => attachLink l st) s1

/- undo: no-op at index <= 0, otherwise decrement and restore wholesale.  The
   out-of-range lookup branch is unreachable from the UI and returns the state
   unchanged (the JS would fault on an undefined snapshot). -/
def undo (s : PState) : PState :=
  if s.historyIndex ≤ 0 then s
  else
    match s.history.get? (s.historyIndex - 1).toNat with
    | none => s
    | some snap => { applySnapshot snap s with historyIndex := s.historyIndex - 1 }

def redo (s : PState) : PState :=
  if s.historyIndex ≥ (s.history.length : ℤ) - 1 then s
  else
    match s.history.get? (s.historyIndex + 1).toNat with
    | none => s
    | some snap => { applySnapshot snap s with historyIndex := s.historyIndex + 1 }

/- Math.hypot on rational coordinates. -/
noncomputable def hypotQ (dx dy : ℚ) : ℝ := Real.sqrt ((dx : ℝ) ^ 2 + (dy : ℝ) ^ 2)

/- createLink: requires both endpoint handles (silent no-op otherwise), rest
   length min(220, center distance), stiffness 0.04, damping 0.02; pushes the
   record and registers the constraint handle.  Note: no aId = bId check. -/
noncomputable def createLink (aId bId : String) (s : PState) : PState :=
  match assocGet s.bodyMap aId, assocGet s.bodyMap bId with
  | some bodyA, some bodyB =>
    let len : ℝ :=
      min 220 (hypotQ (bodyB.position.x - bodyA.position.x) (bodyB.position.y - bodyA.position.y))
    let options : LinkOptions := ⟨0.04, 0.02, len⟩
    let id := mkId linkChars s.nextLinkId
    { s with nextLinkId := s.nextLinkId + 1,
             links := s.links ++ [⟨id, aId, bId, options⟩],
             linkMap := assocSet s.linkMap id ⟨bodyA, bodyB, options⟩ }
  | _, _ => s

/- handleConstraintPoint: the two-click linking gesture.  Returns the next
   state and the hint shown to the user. -/
noncomputable def handleConstraintPoint (b : Option Body) (s : PState) : PState × Option String :=
  match b with
  | none => (s, none)
  | some body =>
    match s.constraintAnchor with
    | none => ({ s with constraintAnchor := some body }, some "Choose another object to connect")
    | some anchor =>
      if anchor.modelId = body.modelId then
        ({ s with constraintAnchor := none }, some "Pick a different object to connect")
      else
        (commitHistory { createLink anchor.modelId body.modelId s with constraintAnchor := none },
         some "Constraint added - drag to feel the spring")

def refreshLinksFor (modelId : String) (s : PState) : PState :=
  s.links.foldl (fun st l => if l.a = modelId ∨ l.b = modelId then attachLink l st else st) s

/- removeLinksFor: drop every link record touching modelId, deleting its
   constraint handle; keep the others in order. -/
def removeLinksFor (modelId : String) (s : PState) : PState :=
  let r := s.links.foldl
    (fun (acc : List SpringLink × List (String × SConstraint)) l =>
      if l.a = modelId ∨ l.b = modelId then (acc.1, assocDelete acc.2 l.id)
      else (acc.1 ++ [l], acc.2))
    ([], s.linkMap)
  { s with links := r.1, linkMap := r.2 }

/- rebuildBody: read kinematics from the live handle, remove it, materialize a
   new handle from the updated model, reapply position, velocity, angular
   velocity and angle, then tear down and recreate the touching constraints. -/
def rebuildBody (m : SceneObject) (s : PState) : PState :=
  match assocGet s.bodyMap m.id with
  | none => s
  | some existing =>
    let nb : Body :=
      { buildBody m with position := existing.position, velocity := existing.velocity,
                         angularVelocity := existing.angularVelocity, angle := existing.angle }
    refreshLinksFor m.id { s with bodyMap := assocSet s.bodyMap m.id nb }

/- The per-id body of the deleteSelection loop. -/
def deleteObject (id : String) (s : PState) : PState :=
  removeLinksFor id
    { s with bodyMap := assocDelete s.bodyMap id,
             objects := s.objects.filter (fun o => ! decide (o.id = id)) }

def deleteSelection (s : PState) : PState :=
  if s.selectedIds.isEmpty then s
  else
    commitHistory
      { s.selectedIds.foldl (fun st id => deleteObject id st) s with
          selectedIds := [], constraintAnchor := none }

/- resetWorld: clear selection and model, reset both counters to 1, clear the
   handle tables, and commit the clean slate. -/
def resetWorld (s : PState) : PState :=
  commitHistory
    { s with selectedIds := [], constraintAnchor := none,
             objects := [], links := [], nextId := 1, nextLinkId := 1,
             bodyMap := [], linkMap := [] }

/- loadScene: reject a document without objects before touching any state;
   otherwise infer absent counters (nextLinkId falls back to 1, it is never
   inferred from the link ids here), restore wholesale and commit.  The second
   component is the failure message surfaced via alert. -/
def loadScene (d : Doc) (s : PState) : PState × Option String :=
  match d.objects with
  | none => (s, some "Invalid scene")
  | some objs =>
    let snap : Snapshot :=
      ⟨objs, d.links.getD [], jsOrOpt d.nextId (inferNextId objs), jsOrOpt d.nextLinkId 1⟩
    (commitHistory (applySnapshot snap s), none)

/- The document written by the save dialog. -/
def serializeScene (s : PState) : Doc :=
  ⟨some s.objects, some s.links, some s.nextId, some s.nextLinkId⟩

/- The user-level operation alphabet for the trace claims. -/
inductive Op where
  | addObject (position : Point) (shape : Shape) (bodyType : BodyType)
  | link (aId bId : String)
  | deleteObj (id : String)
  | commit
  | reset
  | undoOp
  | redoOp
  | load (d : Doc)

/- The draw-tool completion handler: create the model, add it to the world,
   commit, then select it. -/
def addObjectOp (position : Point) (shape : Shape) (bodyType : BodyType) (s : PState) : PState :=
  let p := createModel position shape bodyType s
  handleSelection p.1.id false (commitHistory (addModelToWorld p.1 p.2))

noncomputable def step : Op → PState → PState
  | .addObject p sh bt, s => addObjectOp p sh bt s
  | .link a b, s => commitHistory (createLink a b s)
  | .deleteObj id, s => deleteSelection { s with selectedIds := [id] }
  | .commit, s => commitHistory s
  | .reset, s => resetWorld s
  | .undoOp, s => undo s
  | .redoOp, s => redo s
  | .load d, s => (loadScene d s).1

/- The operations that neither reset the world nor restore a snapshot. -/
def SafeOp : Op → Prop
  | .reset => False
  | .undoOp => False
  | .redoOp => False
  | .load _ => False
  | _ => True

/-! Projection lemmas: which fields each operation leaves untouched. -/

theorem Point.eta (p : Point) : (⟨p.x, p.y⟩ : Point) = p := rfl

theorem attachLink_model (l : SpringLink) (s : PState) :
    (attachLink l s).objects = s.objects ∧ (attachLink l s).links = s.links ∧
    (attachLink l s).bodyMap = s.bodyMap ∧ (attachLink l s).nextId = s.nextId ∧
    (attachLink l s).nextLinkId = s.nextLinkId ∧ (attachLink l s).history = s.history ∧
    (attachLink l s).historyIndex = s.historyIndex ∧
    (attachLink l s).selectedIds = s.selectedIds := by
  unfold attachLink
  cases assocGet s.bodyMap l.a <;> cases assocGet s.bodyMap l.b <;>
    exact ⟨rfl, rfl, rfl, rfl, rfl, rfl, rfl, rfl⟩

theorem foldl_attach_pres {β : Type} (g : PState → β)
    (hg : ∀ (s : PState) (l : SpringLink), g (attachLink l s) = g s) :
    ∀ (ls : List SpringLink) (s : PState),
      g (ls.foldl (fun st l => attachLink l st) s) = g s := by
  intro ls
  induction ls with
  | nil => intro s; rfl
  | cons l rest ih => intro s; rw [List.foldl_cons, ih, hg]

theorem applySnapshot_objects (snap : Snapshot) (s : PState) :
    (applySnapshot snap s).objects = snap.objects := by
  unfold applySnapshot
  rw [foldl_attach_pres PState.objects (fun s l => (attachLink_model l s).1)]

theorem applySnapshot_links (snap : Snapshot) (s : PState) :
    (applySnapshot snap s).links = snap.links := by
  unfold applySnapshot
  rw [foldl_attach_pres PState.links (fun s l => (attachLink_model l s).2.1)]

theorem applySnapshot_bodyMap (snap : Snapshot) (s : PState) :
    (applySnapshot snap s).bodyMap = rebuildAll snap.objects := by
  unfold applySnapshot
  rw [foldl_attach_pres PState.bodyMap (fun s l => (attachLink_model l s).2.2.1)]

theorem applySnapshot_nextId (snap : Snapshot) (s : PState) :
    (applySnapshot snap s).nextId = snap.nextId := by
  unfold applySnapshot
  rw [foldl_attach_pres PState.nextId (fun s l => (attachLink_model l s).2.2.2.1)]

theorem applySnapshot_nextLinkId (snap : Snapshot) (s : PState) :
    (applySnapshot snap s).nextLinkId = jsOrZ snap.nextLinkId (inferNextLinkId snap.links) := by
  unfold applySnapshot
  rw [foldl_attach_pres PState.nextLinkId (fun s l => (attachLink_model l s).2.2.2.2.1)]

theorem applySnapshot_history (snap : Snapshot) (s : PState) :
    (applySnapshot snap s).history = s.history := by
  unfold applySnapshot
  rw [foldl_attach_pres PState.history (fun s l => (attachLink_model l s).2.2.2.2.2.1)]

theorem applySnapshot_historyIndex (snap : Snapshot) (s : PState) :
    (applySnapshot snap s).historyIndex = s.historyIndex := by
  unfold applySnapshot
  rw [foldl_attach_pres PState.historyIndex (fun s l => (attachLink_model l s).2.2.2.2.2.2.1)]

theorem applySnapshot_selectedIds (snap : Snapshot) (s : PState) :
    (applySnapshot snap s).selectedIds = [] := by
  unfold applySnapshot
  rw [foldl_attach_pres PState.selectedIds (fun s l => (attachLink_model l s).2.2.2.2.2.2.2)]

theorem commitHistory_objects (s : PState) :
    (commitHistory s).objects = s.objects.map (syncOne s.bodyMap) := rfl

theorem commitHistory_links (s : PState) : (commitHistory s).links = s.links := rfl

theorem commitHistory_bodyMap (s : PState) : (commitHistory s).bodyMap = s.bodyMap := rfl

theorem commitHistory_linkMap (s : PState) : (commitHistory s).linkMap = s.linkMap := rfl

theorem commitHistory_nextId (s : PState) : (commitHistory s).nextId = s.nextId := rfl

theorem commitHistory_nextLinkId (s : PState) :
    (commitHistory s).nextLinkId = s.nextLinkId := rfl

theorem commitHistory_history (s : PState) :
    (commitHistory s).history
      = s.history.take (s.historyIndex + 1).toNat ++ [snapshotOf (syncModelTransforms s)] := rfl

theorem commitHistory_historyIndex (s : PState) :
    (commitHistory s).historyIndex
      = ((s.history.take (s.historyIndex + 1).toNat
          ++ [snapshotOf (syncModelTransforms s)]).length : ℤ) - 1 := rfl

theorem refresh_fold_pres {β : Type} (g : PState → β)
    (hg : ∀ (s : PState) (l : SpringLink), g (attachLink l s) = g s) (modelId : String) :
    ∀ (ls : List SpringLink) (s : PState),
      g (ls.foldl (fun st l => if l.a = modelId ∨ l.b = modelId then attachLink l st else st) s)
        = g s := by
  intro ls
  induction ls with
  | nil => intro s; rfl
  | cons l rest ih =>
    intro s
    rw [List.foldl_cons, ih]
    by_cases h : l.a = modelId ∨ l.b = modelId
    · rw [if_pos h, hg]
    · rw [if_neg h]

theorem refreshLinksFor_bodyMap (i : String) (s : PState) :
    (refreshLinksFor i s).bodyMap = s.bodyMap := by
  unfold refreshLinksFor
  rw [refresh_fold_pres PState.bodyMap (fun s l => (attachLink_model l s).2.2.1)]

/-! The removeLinksFor fold, characterized. -/

theorem removeLinks_fold_links (modelId : String) :
    ∀ (ls acc : List SpringLink) (lm : List (String × SConstraint)),
      (ls.foldl
        (fun (acc : List SpringLink × List (String × SConstraint)) l =>
          if l.a = modelId ∨ l.b = modelId then (acc.1, assocDelete acc.2 l.id)
          else (acc.1 ++ [l], acc.2))
        (acc, lm)).1
      = acc ++ ls.filter (fun l => ! (decide (l.a = modelId) || decide (l.b = modelId))) := by
  intro ls
  induction ls with
  | nil => intro acc lm; simp
  | cons l rest ih =>
    intro acc lm
    by_cases h : l.a = modelId ∨ l.b = modelId
    · have hp : (! (decide (l.a = modelId) || decide (l.b = modelId))) = false := by
        rcases h with h | h <;> simp [h]
      rw [List.foldl_cons, if_pos h, ih, List.filter_cons, hp]
      simp
    · have hp : (! (decide (l.a = modelId) || decide (l.b = modelId))) = true := by
        push_neg at h
        simp [h.1, h.2]
      rw [List.foldl_cons, if_neg h, ih, List.filter_cons, hp]
      simp

theorem removeLinks_fold_map_keeps_none (modelId : String) :
    ∀ (ls acc : List SpringLink) (lm : List (String × SConstraint)) (i : String),
      assocGet lm i = none →
      assocGet
        (ls.foldl
          (fun (acc : List SpringLink × List (String × SConstraint)) l =>
            if l.a = modelId ∨ l.b = modelId then (acc.1, assocDelete acc.2 l.id)
            else (acc.1 ++ [l], acc.2))
          (acc, lm)).2 i = none := by
  intro ls
  induction ls with
  | nil => intro acc lm i h; exact h
  | cons l rest ih =>
    intro acc lm i h
    rw [List.foldl_cons]
    by_cases hl : l.a = modelId ∨ l.b = modelId
    · rw [if_pos hl]
      exact ih _ _ i (assocGet_assocDelete_none lm l.id i h)
    · rw [if_neg hl]
      exact ih _ _ i h

theorem removeLinks_fold_map_del (modelId : String) :
    ∀ (ls acc : List SpringLink) (lm : List (String × SConstraint)),
      ∀ l ∈ ls, (l.a = modelId ∨ l.b = modelId) →
      assocGet
        (ls.foldl
          (fun (acc : List SpringLink × List (String × SConstraint)) l =>
            if l.a = modelId ∨ l.b = modelId then (acc.1, assocDelete acc.2 l.id)
            else (acc.1 ++ [l], acc.2))
          (acc, lm)).2 l.id = none := by
  intro ls
  induction ls with
  | nil => intro acc lm l hl; cases hl
  | cons l0 rest ih =>
    intro acc lm l hl hmatch
    rcases List.mem_cons.mp hl with he | hrest
    · subst he
      rw [List.foldl_cons, if_pos hmatch]
      exact removeLinks_fold_map_keeps_none modelId rest _ _ l.id
        (assocGet_assocDelete_self lm l.id)
    · rw [List.foldl_cons]
      by_cases hl0 : l0.a = modelId ∨ l0.b = modelId
      · rw [if_pos hl0]; exact ih _ _ l hrest hmatch
      · rw [if_neg hl0]; exact ih _ _ l hrest hmatch

theorem removeLinksFor_links (modelId : String) (s : PState) :
    (removeLinksFor modelId s).links
      = s.links.filter (fun l => ! (decide (l.a = modelId) || decide (l.b = modelId))) := by
  unfold removeLinksFor
  simpa using removeLinks_fold_links modelId s.links [] s.linkMap

theorem removeLinksFor_linkMap_del (modelId : String) (s : PState) (l : SpringLink)
    (hl : l ∈ s.links) (hmatch : l.a = modelId ∨ l.b = modelId) :
    assocGet (removeLinksFor modelId s).linkMap l.id = none := by
  unfold removeLinksFor
  exact removeLinks_fold_map_del modelId s.links [] s.linkMap l hl hmatch

theorem removeLinksFor_objects (modelId : String) (s : PState) :
    (removeLinksFor modelId s).objects = s.objects := rfl

theorem removeLinksFor_bodyMap (modelId : String) (s : PState) :
    (removeLinksFor modelId s).bodyMap = s.bodyMap := rfl

theorem removeLinksFor_nextId (modelId : String) (s : PState) :
    (removeLinksFor modelId s).nextId = s.nextId := rfl

theorem removeLinksFor_nextLinkId (modelId : String) (s : PState) :
    (removeLinksFor modelId s).nextLinkId = s.nextLinkId := rfl

/-! The handle an id resolves to after a full rebuild is the body built from
    the last object carrying that id; syncing transforms right after a full
    rebuild is therefore idempotent on the object list. -/

def lastMatch : List SceneObject → String → Option SceneObject
  | [], _ => none
  | o :: rest, i =>
    match lastMatch rest i with
    | some r => some r
    | none => if o.id = i then some o else none

theorem lastMatch_id : ∀ (objs : List SceneObject) (i : String) (o : SceneObject),
    lastMatch objs i = some o → o.id = i := by
  intro objs
  induction objs with
  | nil => intro i o h; exact absurd h (by simp [lastMatch])
  | cons o0 rest ih =>
    intro i o h
    rw [lastMatch] at h
    cases hr : lastMatch rest i with
    | some r =>
      rw [hr] at h
      simp only [Option.some.injEq] at h
      subst h
      exact ih i r hr
    | none =>
      rw [hr] at h
      by_cases hid : o0.id = i
      · rw [if_pos hid] at h
        simp only [Option.some.injEq] at h
        subst h
        exact hid
      · rw [if_neg hid] at h
        cases h

theorem lastMatch_of_mem : ∀ (objs : List SceneObject) (o : SceneObject), o ∈ objs →
    ∃ L, lastMatch objs o.id = some L := by
  intro objs
  induction objs with
  | nil => intro o h; cases h
  | cons o0 rest ih =>
    intro o h
    rcases List.mem_cons.mp h with he | hm
    · subst he
      cases hr : lastMatch rest o.id with
      | some r => exact ⟨r, by rw [lastMatch, hr]⟩
      | none => exact ⟨o, by rw [lastMatch, hr, if_pos rfl]⟩
    · obtain ⟨L, hL⟩ := ih o hm
      exact ⟨L, by rw [lastMatch, hL]⟩

theorem lastMatch_map (f : SceneObject → SceneObject) (hf : ∀ x, (f x).id = x.id) :
    ∀ (objs : List SceneObject) (i : String),
      lastMatch (objs.map f) i = (lastMatch objs i).map f := by
  intro objs
  induction objs with
  | nil => intro i; rfl
  | cons o rest ih =>
    intro i
    rw [List.map_cons, lastMatch, lastMatch, ih]
    cases hr : lastMatch rest i with
    | some r => rfl
    | none =>
      simp only [Option.map_none']
      rw [hf o]
      by_cases hid : o.id = i
      · rw [if_pos hid, if_pos hid]; rfl
      · rw [if_neg hid, if_neg hid]; rfl

theorem assocGet_foldSet (objs : List SceneObject) :
    ∀ (m0 : List (String × Body)) (i : String),
      assocGet (objs.foldl (fun bm o => assocSet bm o.id (buildBody o)) m0) i
        = match lastMatch objs i with
          | some o => some (buildBody o)
          | none => assocGet m0 i := by
  induction objs with
  | nil => intro m0 i; rfl
  | cons o rest ih =>
    intro m0 i
    rw [List.foldl_cons, ih, lastMatch]
    cases hr : lastMatch rest i with
    | some r => rfl
    | none =>
      by_cases hid : o.id = i
      · rw [if_pos hid, ← hid, assocGet_assocSet_self]
      · rw [if_neg hid]
        exact assocGet_assocSet_ne m0 o.id i _ (fun e => hid e.symm)

theorem assocGet_rebuildAll (objs : List SceneObject) (i : String) :
    assocGet (rebuildAll objs) i = (lastMatch objs i).map buildBody := by
  unfold rebuildAll
  rw [assocGet_foldSet]
  cases lastMatch objs i <;> rfl

theorem syncOne_id (bm : List (String × Body)) (m : SceneObject) :
    (syncOne bm m).id = m.id := by
  unfold syncOne
  cases assocGet bm m.id <;> rfl

theorem buildBody_position (m : SceneObject) : (buildBody m).position = m.position := rfl

theorem buildBody_angle (m : SceneObject) : (buildBody m).angle = m.angle := by
  show (if m.angle = 0 then 0 else m.angle) = m.angle
  by_cases h : m.angle = 0
  · rw [if_pos h, h]
  · rw [if_neg h]

theorem syncOne_eq (bm : List (String × Body)) (m : SceneObject) (b : Body)
    (h : assocGet bm m.id = some b) :
    syncOne bm m = { m with position := b.position, angle := b.angle } := by
  unfold syncOne
  rw [h]

theorem update_self (o : SceneObject) :
    ({ o with position := o.position, angle := o.angle } : SceneObject) = o := rfl

theorem map_id_of_mem {α : Type} (f : α → α) : ∀ (l : List α),
    (∀ x ∈ l, f x = x) → l.map f = l := by
  intro l
  induction l with
  | nil => intro _; rfl
  | cons x rest ih =>
    intro h
    rw [List.map_cons, h x (List.mem_cons_self x rest),
      ih (fun y hy => h y (List.mem_cons_of_mem x hy))]

def syncList (objs : List SceneObject) : List SceneObject :=
  objs.map (syncOne (rebuildAll objs))

theorem syncOne_rebuildAll_mem (objs : List SceneObject) (o : SceneObject) (ho : o ∈ objs) :
    ∃ L, lastMatch objs o.id = some L ∧ L.id = o.id ∧
      syncOne (rebuildAll objs) o = { o with position := L.position, angle := L.angle } ∧
      syncOne (rebuildAll objs) L = L := by
  obtain ⟨L, hL⟩ := lastMatch_of_mem objs o ho
  have hLid : L.id = o.id := lastMatch_id objs o.id L hL
  have hget : assocGet (rebuildAll objs) o.id = some (buildBody L) := by
    rw [assocGet_rebuildAll, hL]; rfl
  have h1 : syncOne (rebuildAll objs) o = { o with position := L.position, angle := L.angle } := by
    rw [syncOne_eq _ _ _ hget, buildBody_position, buildBody_angle]
  have hgetL : assocGet (rebuildAll objs) L.id = some (buildBody L) := by
    rw [hLid]; exact hget
  have h2 : syncOne (rebuildAll objs) L = L := by
    rw [syncOne_eq _ _ _ hgetL, buildBody_position, buildBody_angle, update_self]
  exact ⟨L, hL, hLid, h1, h2⟩

theorem syncList_idem (objs : List SceneObject) : syncList (syncList objs) = syncList objs := by
  unfold syncList
  apply map_id_of_mem
  intro x hx
  obtain ⟨o, ho, hxo⟩ := List.mem_map.mp hx
  subst hxo
  obtain ⟨L, hL, hLid, h1, h2⟩ := syncOne_rebuildAll_mem objs o ho
  have hmapLM : lastMatch (objs.map (syncOne (rebuildAll objs))) o.id
      = some (syncOne (rebuildAll objs) L) := by
    rw [lastMatch_map _ (syncOne_id (rebuildAll objs)) objs o.id, hL]; rfl
  rw [h2] at hmapLM
  have hget2 : assocGet (rebuildAll (objs.map (syncOne (rebuildAll objs)))) o.id
      = some (buildBody L) := by
    rw [assocGet_rebuildAll, hmapLM]; rfl
  have hido : (syncOne (rebuildAll objs) o).id = o.id := syncOne_id _ _
  have hget2' : assocGet (rebuildAll (objs.map (syncOne (rebuildAll objs))))
      (syncOne (rebuildAll objs) o).id = some (buildBody L) := by
    rw [hido]; exact hget2
  rw [syncOne_eq _ _ _ hget2', buildBody_position, buildBody_angle, h1]

theorem inferNextId_map (f : SceneObject → SceneObject) (hf : ∀ x, (f x).id = x.id)
    (objs : List SceneObject) : inferNextId (objs.map f) = inferNextId objs := by
  unfold inferNextId
  rw [List.filterMap_map]
  have he : ((fun o => idSuffix o.id) ∘ f) = fun o : SceneObject => idSuffix o.id := by
    funext o
    simp [Function.comp, hf o]
  rw [he]

theorem jsOrZ_ne_zero (n d : ℤ) (h : ¬ n = 0) : jsOrZ n d = n := if_neg h

theorem jsOrOpt_one_ne_zero (x : Option ℤ) : ¬ jsOrOpt x 1 = 0 := by
  cases x with
  | none => decide
  | some k =>
    unfold jsOrOpt jsOrZ
    by_cases h : k = 0 <;> simp [h]

/-! Concrete fixtures used by the claim witnesses. -/

def c1Obj : SceneObject :=
  { id := "obj-1", label := "polygon", position := ⟨5, 6⟩, angle := 1,
    bodyType := BodyType.dynamic, locked := false, shape := Shape.polygon 5 30,
    physics := DEFAULT_PHYSICS, visual := DEFAULT_VISUAL }

def c1Body : Body :=
  { position := ⟨7, 8⟩, velocity := ⟨1, 2⟩, angle := 3, angularVelocity := 4,
    isStatic := false, isSensor := false, physics := DEFAULT_PHYSICS,
    modelId := "obj-1", locked := false }

def c1State : PState :=
  { initState with objects := [c1Obj], bodyMap := [("obj-1", c1Body)], nextId := 2 }

/-- C1: rebuildBody on a model object with a live handle installs a new handle
whose position, velocity, angle and angular velocity equal the values read
from the old handle immediately before the rebuild, the new handle being
materialized from the updated model (static/sensor flags, material parameters,
lock flag and id back-reference all taken from the model). -/
theorem C1_rebuild_preserves_kinematics (m : SceneObject) (s : PState) (old : Body)
    (h : assocGet s.bodyMap m.id = some old) :
    ∃ nb : Body, assocGet (rebuildBody m s).bodyMap m.id = some nb
      ∧ nb.position = old.position ∧ nb.velocity = old.velocity
      ∧ nb.angle = old.angle ∧ nb.angularVelocity = old.angularVelocity
      ∧ nb.modelId = m.id ∧ nb.locked = m.locked
      ∧ nb.isStatic = decide (m.bodyType = BodyType.static)
      ∧ nb.isSensor = decide (m.bodyType = BodyType.sensor)
      ∧ nb.physics = m.physics := by
  refine ⟨{ buildBody m with
              position := old.position, velocity := old.velocity,
              angularVelocity := old.angularVelocity, angle := old.angle },
    ?_, rfl, rfl, rfl, rfl, rfl, rfl, rfl, rfl, rfl⟩
  unfold rebuildBody
  rw [h]
  rw [refreshLinksFor_bodyMap, assocGet_assocSet_self]

/-- C1 witness: the rebuild-preservation theorem applied to a concrete polygon
object whose live handle has moved away from the model pose. -/
theorem C1_witness :
    ∃ nb : Body, assocGet (rebuildBody c1Obj c1State).bodyMap c1Obj.id = some nb
      ∧ nb.position = c1Body.position ∧ nb.velocity = c1Body.velocity
      ∧ nb.angle = c1Body.angle ∧ nb.angularVelocity = c1Body.angularVelocity
      ∧ nb.modelId = c1Obj.id ∧ nb.locked = c1Obj.locked
      ∧ nb.isStatic = decide (c1Obj.bodyType = BodyType.static)
      ∧ nb.isSensor = decide (c1Obj.bodyType = BodyType.sensor)
      ∧ nb.physics = c1Obj.physics :=
  C1_rebuild_preserves_kinematics c1Obj c1State c1Body rfl

/-- C4 (amended): deleting an object removes, in the same transaction, every
link record whose endpoint a or b is the deleted id and no other; wholesale
replacement (applySnapshot, used by undo, redo and scene load) instead
installs the snapshot link list verbatim, so it preserves the endpoint
invariant only when the snapshot itself satisfies it. -/
theorem C4_link_endpoints (id : String) (s : PState) (snap : Snapshot) (s2 : PState) :
    (deleteObject id s).links
        = s.links.filter (fun l => ! (decide (l.a = id) || decide (l.b = id)))
      ∧ (applySnapshot snap s2).links = snap.links :=
  ⟨removeLinksFor_links id _, applySnapshot_links snap s2⟩

def c4Doc : Doc :=
  ⟨some [], some [⟨"link-1", "ghost-a", "ghost-b", ⟨1, 1, 10⟩⟩], some 5, some 5⟩

/-- C4 counterexample: loading a document whose only link references absent
objects leaves the dangling link record in the model while the object list is
empty, so the claimed every-reachable-state endpoint invariant fails: the
wholesale-replacement operations do not remove links whose endpoints no
longer exist. -/
theorem C4_cx :
    ((loadScene c4Doc initState).1.links.map (fun l => (l.a, l.b)))
        = [("ghost-a", "ghost-b")]
      ∧ (loadScene c4Doc initState).1.objects = [] :=
  ⟨rfl, rfl⟩

/-- C6: deleting object X (deleteSelection with selection [X]) removes exactly
the SpringLink records whose endpoint a or b equals X, deletes their
constraint handles from the link table, and leaves the body handle of every
other object untouched. -/
theorem C6_delete_cascade (s : PState) (X : String) (hsel : s.selectedIds = [X]) :
    (deleteSelection s).links
        = s.links.filter (fun l => ! (decide (l.a = X) || decide (l.b = X)))
      ∧ (∀ i, ¬ i = X → assocGet (deleteSelection s).bodyMap i = assocGet s.bodyMap i)
      ∧ (∀ l ∈ s.links, (l.a = X ∨ l.b = X) →
          assocGet (deleteSelection s).linkMap l.id = none) := by
  have hds : deleteSelection s
      = commitHistory { deleteObject X s with selectedIds := [], constraintAnchor := none } := by
    unfold deleteSelection
    rw [hsel]
    rfl
  refine ⟨?_, ?_, ?_⟩
  · rw [hds, commitHistory_links]
    exact removeLinksFor_links X _
  · intro i hi
    rw [hds, commitHistory_bodyMap]
    show assocGet (assocDelete s.bodyMap X) i = assocGet s.bodyMap i
    exact assocGet_assocDelete_ne s.bodyMap X i hi
  · intro l hl hmatch
    rw [hds, commitHistory_linkMap]
    exact removeLinksFor_linkMap_del X _ l hl hmatch

def c6ObjA : SceneObject :=
  { id := "obj-1", label := "circle", position := ⟨10, 10⟩, angle := 0,
    bodyType := BodyType.dynamic, locked := false, shape := Shape.circle 20,
    physics := DEFAULT_PHYSICS, visual := DEFAULT_VISUAL }

def c6ObjB : SceneObject :=
  { id := "obj-2", label := "rectangle", position := ⟨40, 50⟩, angle := 0,
    bodyType := BodyType.dynamic, locked := false, shape := Shape.rectangle 40 30,
    physics := DEFAULT_PHYSICS, visual := DEFAULT_VISUAL }

def c6Link : SpringLink := ⟨"link-1", "obj-1", "obj-2", ⟨0.04, 0.02, 50⟩⟩

def c6State : PState :=
  { initState with
      objects := [c6ObjA, c6ObjB], links := [c6Link],
      bodyMap := [("obj-1", buildBody c6ObjA), ("obj-2", buildBody c6ObjB)],
      linkMap := [("link-1", ⟨buildBody c6ObjA, buildBody c6ObjB, c6Link.options⟩)],
      selectedIds := ["obj-1"], nextId := 3, nextLinkId := 2 }

/-- C6 witness: deleting obj-1 from a scene with two linked objects empties the
link list, deletes the constraint handle, and keeps the handle of obj-2. -/
theorem C6_witness :
    (deleteSelection c6State).links
        = c6State.links.filter (fun l => ! (decide (l.a = "obj-1") || decide (l.b = "obj-1")))
      ∧ assocGet (deleteSelection c6State).bodyMap "obj-2" = assocGet c6State.bodyMap "obj-2"
      ∧ assocGet (deleteSelection c6State).linkMap "link-1" = none := by
  obtain ⟨h1, h2, h3⟩ := C6_delete_cascade c6State "obj-1" rfl
  exact ⟨h1, h2 "obj-2" (by decide), h3 c6Link (List.mem_cons_self _ _) (Or.inl rfl)⟩

/-- C7: loading a document without the objects key fails, the invalid-scene
message is surfaced to the user, and the whole state (objects, links,
counters, history, handles) is left completely unchanged. -/
theorem C7_load_missing_objects (d : Doc) (s : PState) (h : d.objects = none) :
    loadScene d s = (s, some "Invalid scene") := by
  unfold loadScene
  rw [h]

/-- C7 witness: the all-or-nothing failure applied to the empty document and
the initial state. -/
theorem C7_witness :
    loadScene ⟨none, none, none, none⟩ initState = (initState, some "Invalid scene") :=
  C7_load_missing_objects ⟨none, none, none, none⟩ initState rfl

/-- C3 (corrected): when nextId is absent, loadScene infers it as one greater
than the maximum (seeded with -1, then the JS or-zero fallback) of parseInt
applied to the second dash-separated segment of each object id - not the
trailing numeric suffix - and the default when no id parses is 0, not 1;
nextLinkId is never inferred from the link ids by loadScene: when absent it
is simply 1. -/
theorem C3_infer_counters (d : Doc) (s : PState) (objs : List SceneObject)
    (ho : d.objects = some objs) (hn : d.nextId = none) (hl : d.nextLinkId = none) :
    (loadScene d s).1.nextId
        = jsOrZ ((objs.filterMap (fun o => idSuffix o.id)).foldl max (-1)) 0 + 1
      ∧ ((objs.filterMap (fun o => idSuffix o.id)) = [] → (loadScene d s).1.nextId = 0)
      ∧ (loadScene d s).1.nextLinkId = 1 := by
  have hload : (loadScene d s).1
      = commitHistory (applySnapshot
          ⟨objs, d.links.getD [], jsOrOpt d.nextId (inferNextId objs),
           jsOrOpt d.nextLinkId 1⟩ s) := by
    unfold loadScene
    rw [ho]
  rw [hload, hn, hl]
  refine ⟨?_, ?_, ?_⟩
  · rw [commitHistory_nextId, applySnapshot_nextId]
    rfl
  · intro hemp
    rw [commitHistory_nextId, applySnapshot_nextId]
    show jsOrOpt none (inferNextId objs) = 0
    simp only [jsOrOpt, inferNextId, hemp]
    rfl
  · rw [commitHistory_nextLinkId, applySnapshot_nextLinkId]
    rfl

def c3Obj : SceneObject :=
  { id := "a-b-7", label := "circle", position := ⟨0, 0⟩, angle := 0,
    bodyType := BodyType.dynamic, locked := false, shape := Shape.circle 10,
    physics := DEFAULT_PHYSICS, visual := DEFAULT_VISUAL }

def c3Doc : Doc := ⟨some [c3Obj], some [⟨"link-5", "a", "b", ⟨1, 1, 10⟩⟩], none, none⟩

/-- C3 counterexample: for a document with one object id a-b-7 (trailing
numeric suffix 7) and one link id link-5, both counters absent, the claim
demands nextId 8 and nextLinkId 6; the code yields nextId 0 (the second dash
segment b does not parse, and the empty maximum gives -1 plus 1) and
nextLinkId 1 (loadScene never inspects link ids when inferring). -/
theorem C3_cx :
    (loadScene c3Doc initState).1.nextId = 0
      ∧ (loadScene c3Doc initState).1.nextLinkId = 1
      ∧ ¬ (loadScene c3Doc initState).1.nextId = 8
      ∧ ¬ (loadScene c3Doc initState).1.nextLinkId = 6 := by
  refine ⟨rfl, rfl, by decide, by decide⟩

/-- C3 witness: the inference equations instantiated on the a-b-7 document
with both counters absent. -/
theorem C3_witness :
    (loadScene c3Doc initState).1.nextId
        = jsOrZ (([c3Obj].filterMap (fun o => idSuffix o.id)).foldl max (-1)) 0 + 1
      ∧ (loadScene c3Doc initState).1.nextId = 0
      ∧ (loadScene c3Doc initState).1.nextLinkId = 1 := by
  obtain ⟨h1, h2, h3⟩ := C3_infer_counters c3Doc initState [c3Obj] rfl rfl rfl
  exact ⟨h1, h2 (by decide), h3⟩

/-- C8 (amended): the equal-endpoint check lives in the gesture handler, not
in createLink: handleConstraintPoint with an anchored body of the same model
id rejects the request, clears the anchor, changes nothing else and notifies
the user with a hint; createLink itself checks only that both ids have live
handles and silently creates nothing when one is missing (no notification),
performing no equality check of its own. -/
theorem C8_invalid_endpoints :
    (∀ (s : PState) (anchor body : Body),
        s.constraintAnchor = some anchor → anchor.modelId = body.modelId →
        handleConstraintPoint (some body) s
          = ({ s with constraintAnchor := none }, some "Pick a different object to connect"))
      ∧ (∀ (s : PState) (a b : String),
          assocGet s.bodyMap a = none ∨ assocGet s.bodyMap b = none →
          createLink a b s = s) := by
  constructor
  · intro s anchor body ha heq
    unfold handleConstraintPoint
    rw [ha]
    simp [heq]
  · intro s a b h
    unfold createLink
    rcases h with h | h
    · rw [h]
    · rw [h]
      cases assocGet s.bodyMap a <;> rfl

/-- C8 witness: the rejection theorem applied to a double click on the same
concrete object, and to a createLink request naming a missing id. -/
theorem C8_witness :
    handleConstraintPoint (some c1Body) { c1State with constraintAnchor := some c1Body }
        = ({ c1State with constraintAnchor := none },
           some "Pick a different object to connect")
      ∧ createLink "obj-1" "missing" c1State = c1State := by
  obtain ⟨h1, h2⟩ := C8_invalid_endpoints
  exact ⟨h1 { c1State with constraintAnchor := some c1Body } c1Body c1Body rfl rfl,
    h2 c1State "obj-1" "missing" (Or.inr rfl)⟩

/-- C8 counterexample: createLink with both endpoint ids equal to obj-1 (a
live object) is not rejected: a self-link record with a = b is appended to
the model and the link counter advances, contradicting the claim that a
link-creation request with equal ids fails with no state change. -/
theorem C8_cx :
    ((createLink "obj-1" "obj-1" c1State).links.map (fun l => (l.a, l.b)))
        = [("obj-1", "obj-1")]
      ∧ (createLink "obj-1" "obj-1" c1State).nextLinkId = c1State.nextLinkId + 1 :=
  ⟨rfl, rfl⟩

/-- C10: createLink between two live bodies always sets stiffness 0.04,
damping 0.02, and a rest length of min(220, Euclidean distance between the
two body centers); the rest length therefore never exceeds the current
separation, so links between distant objects are created shorter than the
separation. -/
theorem C10_link_options (s : PState) (a b : String) (ba bb : Body)
    (ha : assocGet s.bodyMap a = some ba) (hb : assocGet s.bodyMap b = some bb) :
    ∃ link : SpringLink,
      (createLink a b s).links = s.links ++ [link]
        ∧ link.a = a ∧ link.b = b
        ∧ link.options.stiffness = 0.04 ∧ link.options.damping = 0.02
        ∧ link.options.length
            = min 220 (hypotQ (bb.position.x - ba.position.x) (bb.position.y - ba.position.y))
        ∧ link.options.length
            ≤ hypotQ (bb.position.x - ba.position.x) (bb.position.y - ba.position.y)
        ∧ link.options.length ≤ 220 := by
  refine ⟨⟨mkId linkChars s.nextLinkId, a, b,
      ⟨0.04, 0.02,
       min 220 (hypotQ (bb.position.x - ba.position.x) (bb.position.y - ba.position.y))⟩⟩,
    ?_, rfl, rfl, rfl, rfl, rfl, min_le_right _ _, min_le_left _ _⟩
  unfold createLink
  rw [ha, hb]

def c10State : PState :=
  { initState with
      objects := [c6ObjA, c6ObjB],
      bodyMap := [("obj-1", buildBody c6ObjA), ("obj-2", buildBody c6ObjB)],
      nextId := 3 }

/-- C10 witness: the option theorem applied to a concrete pair of live
bodies at (10, 10) and (40, 50). -/
theorem C10_witness :
    ∃ link : SpringLink,
      (createLink "obj-1" "obj-2" c10State).links = c10State.links ++ [link]
        ∧ link.a = "obj-1" ∧ link.b = "obj-2"
        ∧ link.options.stiffness = 0.04 ∧ link.options.damping = 0.02
        ∧ link.options.length
            = min 220 (hypotQ ((buildBody c6ObjB).position.x - (buildBody c6ObjA).position.x)
                ((buildBody c6ObjB).position.y - (buildBody c6ObjA).position.y))
        ∧ link.options.length
            ≤ hypotQ ((buildBody c6ObjB).position.x - (buildBody c6ObjA).position.x)
                ((buildBody c6ObjB).position.y - (buildBody c6ObjA).position.y)
        ∧ link.options.length ≤ 220 :=
  C10_link_options c10State "obj-1" "obj-2" (buildBody c6ObjA) (buildBody c6ObjB) rfl rfl

/-! Counter invariants. -/

/- Every parse of the id suffix stays below the counter. -/
def idLt (i : String) (n : ℤ) : Prop := ∀ k, idSuffix i = some k → k < n

def CounterInv (s : PState) : Prop :=
  0 ≤ s.nextId ∧ 0 ≤ s.nextLinkId
    ∧ (∀ o ∈ s.objects, idLt o.id s.nextId)
    ∧ (∀ l ∈ s.links, idLt l.id s.nextLinkId)

theorem objChars_no_dash : ∀ c ∈ objChars, ¬ c = '-' := by decide

theorem linkChars_no_dash : ∀ c ∈ linkChars, ¬ c = '-' := by decide

theorem createLink_noop (s : PState) (a b : String)
    (h : assocGet s.bodyMap a = none ∨ assocGet s.bodyMap b = none) :
    createLink a b s = s := by
  unfold createLink
  rcases h with h | h
  · rw [h]
  · rw [h]
    cases assocGet s.bodyMap a <;> rfl

noncomputable def linkOpts (ba bb : Body) : LinkOptions :=
  ⟨0.04, 0.02, min 220 (hypotQ (bb.position.x - ba.position.x) (bb.position.y - ba.position.y))⟩

theorem createLink_some (s : PState) (a b : String) (ba bb : Body)
    (ha : assocGet s.bodyMap a = some ba) (hb : assocGet s.bodyMap b = some bb) :
    createLink a b s
      = { s with
            nextLinkId := s.nextLinkId + 1,
            links := s.links ++ [⟨mkId linkChars s.nextLinkId, a, b, linkOpts ba bb⟩],
            linkMap := assocSet s.linkMap (mkId linkChars s.nextLinkId) ⟨ba, bb, linkOpts ba bb⟩ } := by
  unfold createLink
  rw [ha, hb]
  rfl

theorem CounterInv_commit (s : PState) (h : CounterInv s) : CounterInv (commitHistory s) := by
  obtain ⟨h0, h1, hobj, hlink⟩ := h
  refine ⟨h0, h1, ?_, hlink⟩
  intro o' ho' k hk
  rw [commitHistory_objects] at ho'
  obtain ⟨o, ho, rfl⟩ := List.mem_map.mp ho'
  rw [syncOne_id] at hk
  exact hobj o ho k hk

theorem CounterInv_delete (id : String) (s : PState) (h : CounterInv s) :
    CounterInv (deleteObject id s) := by
  obtain ⟨h0, h1, hobj, hlink⟩ := h
  refine ⟨h0, h1, ?_, ?_⟩
  · intro o ho k hk
    have ho' : o ∈ s.objects.filter (fun o => ! decide (o.id = id)) := ho
    exact hobj o (List.mem_of_mem_filter ho') k hk
  · intro l hl k hk
    have hl' : l ∈ (removeLinksFor id
        { s with bodyMap := assocDelete s.bodyMap id,
                 objects := s.objects.filter (fun o => ! decide (o.id = id)) }).links := hl
    rw [removeLinksFor_links] at hl'
    exact hlink l (List.mem_of_mem_filter hl') k hk

def c2State : PState :=
  addObjectOp ⟨50, 50⟩ (Shape.circle 10) BodyType.dynamic (commitHistory initState)

/-- C2 counterexample: after creating one object the counter is 2, yet the
reachable operation resetWorld sets it back to 1, so nextId is decremented
and no longer exceeds the suffix of the already-issued id obj-1; the claim
that the counters are never decremented across every operation including
resetWorld is false on the code. -/
theorem C2_cx :
    (resetWorld c2State).nextId < c2State.nextId
      ∧ (resetWorld c2State).nextId = 1 ∧ c2State.nextId = 2 := by
  refine ⟨by decide, rfl, rfl⟩

/-- C2 (corrected): excluding resetWorld and the snapshot-restoring
operations (undo, redo, scene load), no operation decreases nextId or
nextLinkId, and object and link creation issue ids whose numeric suffix
equals the pre-increment counter, so both counters stay strictly above the
suffix of every id present in the model; resetWorld however resets both
counters to 1 and the snapshot-restoring operations install the counters
saved in the snapshot, either of which can decrease them. -/
theorem C2_counters_monotone (op : Op) (s : PState) (hs : SafeOp op) :
    (s.nextId ≤ (step op s).nextId ∧ s.nextLinkId ≤ (step op s).nextLinkId)
      ∧ (CounterInv s → CounterInv (step op s)) := by
  cases op with
  | reset => exact hs.elim
  | undoOp => exact hs.elim
  | redoOp => exact hs.elim
  | load d => exact hs.elim
  | commit =>
    exact ⟨⟨le_of_eq rfl, le_of_eq rfl⟩, fun h => CounterInv_commit s h⟩
  | deleteObj id =>
    have hst : step (Op.deleteObj id) s
        = commitHistory
            { deleteObject id { s with selectedIds := [id] } with
                selectedIds := [], constraintAnchor := none } := rfl
    rw [hst]
    refine ⟨⟨le_of_eq rfl, le_of_eq rfl⟩, ?_⟩
    intro h
    apply CounterInv_commit
    exact CounterInv_delete id { s with selectedIds := [id] } h
  | addObject p sh bt =>
    constructor
    · exact ⟨by show s.nextId ≤ s.nextId + 1; omega, le_of_eq rfl⟩
    · intro h
      obtain ⟨h0, h1, hobj, hlink⟩ := h
      have hpre : CounterInv (addModelToWorld (createModel p sh bt s).1 (createModel p sh bt s).2) := by
        refine ⟨by show (0 : ℤ) ≤ s.nextId + 1; omega, h1, ?_, hlink⟩
        intro o ho k hk
        have ho' : o ∈ s.objects ++ [(createModel p sh bt s).1] := ho
        rcases List.mem_append.mp ho' with hL | hR
        · have := hobj o hL k hk
          show k < s.nextId + 1
          omega
        · have heq : o = (createModel p sh bt s).1 := List.mem_singleton.mp hR
          subst heq
          have hk' : idSuffix (mkId objChars s.nextId) = some k := hk
          have he : s.nextId = k :=
            Option.some.inj ((idSuffix_mkId objChars s.nextId objChars_no_dash h0).symm.trans hk')
          show k < s.nextId + 1
          omega
      exact CounterInv_commit _ hpre
  | link a b =>
    have hst : step (Op.link a b) s = commitHistory (createLink a b s) := rfl
    cases ha : assocGet s.bodyMap a with
    | none =>
      have hcl : createLink a b s = s := createLink_noop s a b (Or.inl ha)
      rw [hst, hcl]
      exact ⟨⟨le_of_eq rfl, le_of_eq rfl⟩, fun h => CounterInv_commit s h⟩
    | some ba =>
      cases hb : assocGet s.bodyMap b with
      | none =>
        have hcl : createLink a b s = s := createLink_noop s a b (Or.inr hb)
        rw [hst, hcl]
        exact ⟨⟨le_of_eq rfl, le_of_eq rfl⟩, fun h => CounterInv_commit s h⟩
      | some bb =>
        rw [hst, createLink_some s a b ba bb ha hb]
        constructor
        · exact ⟨le_of_eq rfl, by show s.nextLinkId ≤ s.nextLinkId + 1; omega⟩
        · intro h
          obtain ⟨h0, h1, hobj, hlink⟩ := h
          apply CounterInv_commit
          refine ⟨h0, by show (0 : ℤ) ≤ s.nextLinkId + 1; omega, hobj, ?_⟩
          intro l hl k hk
          have hl' : l ∈ s.links ++ [⟨mkId linkChars s.nextLinkId, a, b, linkOpts ba bb⟩] := hl
          rcases List.mem_append.mp hl' with hL | hR
          · have := hlink l hL k hk
            show k < s.nextLinkId + 1
            omega
          · have heq : l = ⟨mkId linkChars s.nextLinkId, a, b, linkOpts ba bb⟩ :=
              List.mem_singleton.mp hR
            subst heq
            have hk' : idSuffix (mkId linkChars s.nextLinkId) = some k := hk
            have he : s.nextLinkId = k :=
              Option.some.inj
                ((idSuffix_mkId linkChars s.nextLinkId linkChars_no_dash h1).symm.trans hk')
            show k < s.nextLinkId + 1
            omega

/-- C2 witness: the monotonicity statement applied to a commit on the
initial state. -/
theorem C2_witness :
    (initState.nextId ≤ (step Op.commit initState).nextId
        ∧ initState.nextLinkId ≤ (step Op.commit initState).nextLinkId)
      ∧ (CounterInv initState → CounterInv (step Op.commit initState)) :=
  C2_counters_monotone Op.commit initState trivial

/-! History scenario states: commit S0 (empty), S1 (one circle), S2 (circle
    and rectangle). -/

def c5s0 : PState := commitHistory initState

def c5s1 : PState := addObjectOp ⟨100, 100⟩ (Shape.circle 20) BodyType.dynamic c5s0

def c5s2 : PState := addObjectOp ⟨200, 150⟩ (Shape.rectangle 40 30) BodyType.dynamic c5s1

/-- C5: undo at index 0 and redo at the newest index leave the entire state
unchanged; in the concrete scenario committing S0 (empty scene), S1 (one
circle), S2 (circle and rectangle), double undo restores the S0 model exactly
and double redo restores the S2 model exactly; and every commit first
truncates the history beyond the current index before pushing, so a commit
performed after an undo discards the redo branch. -/
theorem C5_history :
    (∀ s : PState, s.historyIndex = 0 → undo s = s)
      ∧ (∀ s : PState, s.historyIndex = (s.history.length : ℤ) - 1 → redo s = s)
      ∧ ((undo (undo c5s2)).objects = c5s0.objects
          ∧ (undo (undo c5s2)).links = c5s0.links
          ∧ (undo (undo c5s2)).nextId = c5s0.nextId
          ∧ (undo (undo c5s2)).nextLinkId = c5s0.nextLinkId
          ∧ (undo (undo c5s2)).historyIndex = 0)
      ∧ ((redo (redo (undo (undo c5s2)))).objects = c5s2.objects
          ∧ (redo (redo (undo (undo c5s2)))).links = c5s2.links
          ∧ (redo (redo (undo (undo c5s2)))).nextId = c5s2.nextId
          ∧ (redo (redo (undo (undo c5s2)))).nextLinkId = c5s2.nextLinkId
          ∧ (redo (redo (undo (undo c5s2)))).historyIndex = 2)
      ∧ (∀ s : PState, (commitHistory s).history
            = s.history.take (s.historyIndex + 1).toNat
                ++ [snapshotOf (syncModelTransforms s)]
          ∧ (commitHistory s).historyIndex
              = ((s.history.take (s.historyIndex + 1).toNat).length : ℤ))
      ∧ ((commitHistory (undo c5s2)).history.length = 3
          ∧ (commitHistory (undo c5s2)).historyIndex = 2) := by
  refine ⟨?_, ?_, ?_, ?_, ?_, ?_⟩
  · intro s h
    unfold undo
    rw [if_pos h.le]
  · intro s h
    unfold redo
    rw [if_pos h.ge]
  · exact ⟨rfl, rfl, rfl, rfl, rfl⟩
  · exact ⟨rfl, rfl, rfl, rfl, rfl⟩
  · intro s
    refine ⟨rfl, ?_⟩
    rw [commitHistory_historyIndex, List.length_append, List.length_singleton]
    push_cast
    omega
  · exact ⟨rfl, rfl⟩

/-- C5 witness: the boundary no-ops and the truncation equation instantiated
on the concrete scenario states. -/
theorem C5_witness :
    undo c5s0 = c5s0 ∧ redo c5s2 = c5s2
      ∧ (commitHistory c5s1).history
          = c5s1.history.take (c5s1.historyIndex + 1).toNat
              ++ [snapshotOf (syncModelTransforms c5s1)] := by
  obtain ⟨h1, h2, _, _, h5, _⟩ := C5_history
  exact ⟨h1 c5s0 (by decide), h2 c5s2 (by decide), (h5 c5s1).1⟩

/-! The document fields produced by a successful load. -/

theorem loadScene_fields (d : Doc) (s : PState) (objs : List SceneObject)
    (h : d.objects = some objs) :
    (loadScene d s).1.objects = syncList objs
      ∧ (loadScene d s).1.links = d.links.getD []
      ∧ (loadScene d s).1.nextId = jsOrOpt d.nextId (inferNextId objs)
      ∧ (loadScene d s).1.nextLinkId = jsOrOpt d.nextLinkId 1 := by
  have hload : (loadScene d s).1
      = commitHistory (applySnapshot
          ⟨objs, d.links.getD [], jsOrOpt d.nextId (inferNextId objs),
           jsOrOpt d.nextLinkId 1⟩ s) := by
    unfold loadScene
    rw [h]
  refine ⟨?_, ?_, ?_, ?_⟩
  · rw [hload, commitHistory_objects, applySnapshot_objects, applySnapshot_bodyMap]
    rfl
  · rw [hload, commitHistory_links, applySnapshot_links]
  · rw [hload, commitHistory_nextId, applySnapshot_nextId]
  · rw [hload, commitHistory_nextLinkId, applySnapshot_nextLinkId]
    exact jsOrZ_ne_zero _ _ (jsOrOpt_one_ne_zero d.nextLinkId)

/-- C9: for every document carrying an objects key, serialize after
deserialize is idempotent from the second application onward: saving the
scene obtained by loading the saved scene reproduces the saved document
structurally. -/
theorem C9_roundtrip_idem (d : Doc) (s : PState) (objs : List SceneObject)
    (h : d.objects = some objs) :
    serializeScene ((loadScene (serializeScene ((loadScene d s).1)) ((loadScene d s).1)).1)
      = serializeScene ((loadScene d s).1) := by
  obtain ⟨hobjs1, hlinks1, hnid1, hnlid1⟩ := loadScene_fields d s objs h
  obtain ⟨hobjs2, hlinks2, hnid2, hnlid2⟩ :=
    loadScene_fields (serializeScene ((loadScene d s).1)) ((loadScene d s).1)
      ((loadScene d s).1).objects rfl
  have hfin : ∀ (x y : PState), x.objects = y.objects → x.links = y.links →
      x.nextId = y.nextId → x.nextLinkId = y.nextLinkId →
      serializeScene x = serializeScene y := by
    intro x y e1 e2 e3 e4
    unfold serializeScene
    rw [e1, e2, e3, e4]
  apply hfin
  · rw [hobjs2, hobjs1, syncList_idem]
  · rw [hlinks2]
    rfl
  · rw [hnid2]
    show jsOrZ ((loadScene d s).1.nextId) (inferNextId ((loadScene d s).1.objects))
      = (loadScene d s).1.nextId
    by_cases hz : (loadScene d s).1.nextId = 0
    · rw [hz]
      show inferNextId ((loadScene d s).1.objects) = 0
      have hio : inferNextId objs = 0 := by
        have h0 : jsOrOpt d.nextId (inferNextId objs) = 0 := by rw [← hnid1]; exact hz
        cases hdn : d.nextId with
        | none => rw [hdn] at h0; exact h0
        | some k =>
          rw [hdn] at h0
          by_cases hk : k = 0
          · subst hk
            exact h0
          · exfalso
            rw [show jsOrOpt (some k) (inferNextId objs) = jsOrZ k (inferNextId objs) from rfl,
              jsOrZ_ne_zero k _ hk] at h0
            exact hk h0
      rw [hobjs1]
      show inferNextId (objs.map (syncOne (rebuildAll objs))) = 0
      rw [inferNextId_map _ (syncOne_id (rebuildAll objs)) objs]
      exact hio
    · exact jsOrZ_ne_zero _ _ hz
  · rw [hnlid2]
    show jsOrZ ((loadScene d s).1.nextLinkId) 1 = (loadScene d s).1.nextLinkId
    have hV : ¬ (loadScene d s).1.nextLinkId = 0 := by
      rw [hnlid1]
      exact jsOrOpt_one_ne_zero d.nextLinkId
    exact jsOrZ_ne_zero _ _ hV

def c9Doc : Doc := ⟨some [c6ObjA, c6ObjB], some [c6Link], none, none⟩

/-- C9 witness: the idempotence theorem applied to a concrete two-object,
one-link document with absent counters. -/
theorem C9_witness :
    serializeScene ((loadScene (serializeScene ((loadScene c9Doc initState).1))
        ((loadScene c9Doc initState).1)).1)
      = serializeScene ((loadScene c9Doc initState).1) :=
  C9_roundtrip_idem c9Doc initState [c6ObjA, c6ObjB] rfl

end MatterPlayground
